import Mathlib

/-! Formalisation of the powerlifting warmup tool (src/warmup_tool/main.py).

The tool loads a CSV catalog of mobility tests, asks the user which lifts they
will perform, runs an interactive pass/fail assessment over the catalog rows
whose area is relevant to the selected lifts, and prints a warmup plan derived
from the failed rows.  We embed the pure logic of the program: the constant
tables, the relevant-area resolver, the assessment loop (console input modelled
as a list of input strings, console output as a list of printed lines), and the
warmup-plan generator. -/

/-- One of the three lift movements the user can select; these are the keys of
the Python dict LIFT_SPECIFIC_TESTS. -/
inductive Lift where
  | squat
  | bench
  | deadlift
deriving DecidableEq, Repr

/-- The display name of a lift, as interpolated into the Python output. -/
def liftName : Lift → String
  | .squat => "squat"
  | .bench => "bench"
  | .deadlift => "deadlift"

/-- The lift-specific test areas (main.py lines 5-38). -/
def LIFT_SPECIFIC_TESTS : Lift → List String
  | .squat =>
      ["Ankle Mobility", "Hip Flexion", "Hip Internal Rotation",
       "Hip External Rotation", "Thoracic Extension",
       "Shoulder Internal Rotation", "Lat Flexibility", "Bracing Ability",
       "Anterior Core Control", "Hip Hinge Pattern", "Squat Pattern"]
  | .bench =>
      ["Shoulder External Rotation", "Shoulder Internal Rotation",
       "Thoracic Extension", "Lat Flexibility", "Wrist Mobility",
       "Bracing Ability", "Bench Setup"]
  | .deadlift =>
      ["Hip Flexion", "Hamstring Flexibility", "Lat Flexibility",
       "Wrist Mobility", "Bracing Ability", "Anterior Core Control",
       "Hip Hinge Pattern", "Deadlift Setup"]

/-- The fundamental test areas, always relevant (main.py lines 40-44). -/
def FUNDAMENTAL_TESTS : List String :=
  ["General Pain Assessment", "Muscle Soreness", "CNS Fatigue"]

/-- Relevant areas for a lift selection (get_relevant_tests, main.py lines
78-85): start from the Python set of FUNDAMENTAL_TESTS and add every
lift-specific test of every selected lift.  The Python set becomes a
Finset. -/
def get_relevant_tests (lifts : List Lift) : Finset String :=
  lifts.foldl
    (fun acc lift =>
      (LIFT_SPECIFIC_TESTS lift).foldl (fun acc2 t => insert t acc2) acc)
    FUNDAMENTAL_TESTS.toFinset

/-- One row of the assessment CSV.  The solution columns may be missing in the
CSV; pandas represents a missing cell as NaN, which we model as `none`. -/
structure TestRow where
  area : String
  test : String
  description : String
  fail_criteria : String
  solution_1 : Option String
  solution_2 : Option String
  solution_3 : Option String
  solution_4 : Option String
deriving DecidableEq, Repr

/-- Placeholder row used to totalise positional indexing; every claim about
row lookup carries the bound that makes this default unreachable. -/
def default_row : TestRow :=
  ⟨"", "", "", "", none, none, none, none⟩

/-- Positional row access, the embedding of assessment_data.iloc[idx]. -/
def row_at (catalog : List TestRow) (idx : Nat) : TestRow :=
  catalog.getD idx default_row

/-- Area of the row at a positional index. -/
def area_of (catalog : List TestRow) (idx : Nat) : String :=
  (row_at catalog idx).area

/-- Rendering of a cell by Python string interpolation: a present value prints
itself, a missing cell (pandas NaN) prints as the placeholder "nan". -/
def render_cell : Option String → String
  | some s => s
  | none => "nan"

/-- The Solution_j column of a row, j ∈ {1,2,3,4}. -/
def solution_slot (row : TestRow) : Nat → Option String
  | 1 => row.solution_1
  | 2 => row.solution_2
  | 3 => row.solution_3
  | 4 => row.solution_4
  | _ => none

/-- Python str.lower() on the ASCII console responses: lowercase every
character. -/
def lower_string (s : String) : String :=
  ⟨s.data.map Char.toLower⟩

/-- Validity test on a lowercased response, main.py line 131: the response
must be one of y, n, skip. -/
def valid_response (r : String) : Bool :=
  r == "y" || r == "n" || r == "skip"

/-- The while-loop of main.py lines 129-133: lowercase each console input and
keep prompting until a valid one appears; returns the first valid (lowercased)
response with the unconsumed inputs, or none if the input stream runs dry. -/
def ask_until_valid : List String → Option (String × List String)
  | [] => none
  | i :: rest =>
      if valid_response (lower_string i) then some (lower_string i, rest)
      else ask_until_valid rest

/-- The assessment loop of run_assessment, main.py lines 114-136, over the
enumerated catalog rows.  Returns (failed indices, shown indices, remaining
inputs): a row whose area is irrelevant is passed over without consuming
input; a relevant row is shown (its index is recorded in the second
component, standing for the console display of lines 125-127), its response
is resolved by ask_until_valid, and its index is appended to the failed list
when that response is "y".  Returns none when the input stream is
exhausted mid-prompt. -/
def run_tests :
    List (Nat × TestRow) → Finset String → List String →
      Option (List Nat × List Nat × List String)
  | [], _, inputs => some ([], [], inputs)
  | (index, row) :: rest, relevant_areas, inputs =>
      if row.area ∈ relevant_areas then
        match ask_until_valid inputs with
        | none => none
        | some (response, inputs') =>
            match run_tests rest relevant_areas inputs' with
            | none => none
            | some (failed, shown, remaining) =>
                some (if response == "y" then index :: failed else failed,
                      index :: shown, remaining)
      else run_tests rest relevant_areas inputs

/-- The response log of the same loop: the ordered sequence of
(row index, final response) pairs for the relevant rows. -/
def response_log :
    List (Nat × TestRow) → Finset String → List String →
      Option (List (Nat × String) × List String)
  | [], _, inputs => some ([], inputs)
  | (index, row) :: rest, relevant_areas, inputs =>
      if row.area ∈ relevant_areas then
        match ask_until_valid inputs with
        | none => none
        | some (response, inputs') =>
            match response_log rest relevant_areas inputs' with
            | none => none
            | some (log, remaining) =>
                some ((index, response) :: log, remaining)
      else response_log rest relevant_areas inputs

/-- One step of the area grouping of main.py lines 167-173: count the area,
incrementing an existing entry in place or appending a fresh entry, as a
Python dict (insertion-ordered) does. -/
def bump_area (acc : List (String × Nat)) (area : String) :
    List (String × Nat) :=
  if acc.any (fun p => p.1 == area) then
    acc.map (fun p => if p.1 == area then (p.1, p.2 + 1) else p)
  else acc ++ [(area, 1)]

/-- The area_counts dict of main.py lines 167-173, in insertion order. -/
def area_counts (catalog : List TestRow) (failed : List Nat) :
    List (String × Nat) :=
  failed.foldl (fun acc idx => bump_area acc (area_of catalog idx)) []

/-- The comparison used to model Python sorted(key=count, reverse=True):
x precedes y when x's count is at least y's. -/
def count_ge (x y : String × Nat) : Bool :=
  decide (y.2 ≤ x.2)

/-- The sorted_areas list of main.py line 176.  Python's sorted is a stable
merge sort, and with reverse=True it yields descending keys with ties kept in
original order; List.mergeSort with count_ge has exactly this behaviour. -/
def sorted_areas (catalog : List TestRow) (failed : List Nat) :
    List (String × Nat) :=
  (area_counts catalog failed).mergeSort count_ge

/-- Distinct elements of a list in first-encounter order, used to state what
the insertion-ordered area_counts dict holds. -/
def dedup_keys : List String → List String
  | [] => []
  | a :: as => a :: (dedup_keys as).filter (fun b => b != a)

/-- The standard bar-weight progression block printed for a lift (main.py
lines 150-155 with step "2", lines 198-203 with step "3"). -/
def standard_progression (step : String) (lift : Lift) : List String :=
  ["\n" ++ step ++ ". Standard " ++ liftName lift ++ " progression:",
   "   - Empty bar: 10-15 reps",
   "   - 40% of working weight: 8-10 reps",
   "   - 60% of working weight: 5-8 reps",
   "   - 75% of working weight: 3-5 reps",
   "   - 85-90% of working weight: 1-2 reps (optional)"]

/-- The all-passed template of the spec: header, congratulation, one cardio
line, then the standard progression for each selected lift, and nothing
else. -/
def all_passed_template (selected_lifts : List Lift) : List String :=
  ["\n=== YOUR WARMUP PLAN ===\n",
   "Congratulations! You passed all tests. Here\x27s a basic warmup routine:",
   "1. 5-10 minutes of light cardio (rowing, cycling, or jumping jacks)"] ++
  selected_lifts.flatMap (standard_progression "2")

/-- One corrective-exercise block (main.py lines 191-194): the area/test
header of the row followed by its first three solution cells, numbered 1-3,
each printed unconditionally through Python interpolation. -/
def exercise_block (row : TestRow) : List String :=
  ("\n-- " ++ row.area ++ ": " ++ row.test ++ " --") ::
  (List.range' 1 3).map
    (fun j => "  " ++ toString j ++ ". " ++ render_cell (solution_slot row j))

/-- The corrective-exercise blocks of main.py lines 186-194: one block for
each i < min 5 (number of failed rows), taken from failed_indices[i]. -/
def corrective_blocks (catalog : List TestRow) (failed : List Nat) :
    List (List String) :=
  (List.range (min 5 failed.length)).map
    (fun i => exercise_block (row_at catalog (failed.getD i 0)))

/-- One step of the tip-gathering loop of main.py lines 211-222: a failed row
with a present Solution_4 appends its formatted tip to every selected lift
whose lift-specific list contains the row's area. -/
def tip_step (catalog : List TestRow) (tips : List (Lift × List String))
    (idx : Nat) : List (Lift × List String) :=
  match (row_at catalog idx).solution_4 with
  | some advice =>
      tips.map (fun p =>
        if (row_at catalog idx).area ∈ LIFT_SPECIFIC_TESTS p.1 then
          (p.1, p.2 ++ ["- " ++ (row_at catalog idx).area ++ ": " ++ advice])
        else p)
  | none => tips

/-- The lift_specific_tips dict of main.py lines 209-222, keyed by the
selected lifts in selection order. -/
def lift_specific_tips (catalog : List TestRow) (failed : List Nat)
    (selected_lifts : List Lift) : List (Lift × List String) :=
  failed.foldl (tip_step catalog) (selected_lifts.map (fun l => (l, [])))

/-- Characterisation from the spec of the tips one lift receives: the failed
rows with a present Solution_4 whose area is in that lift's specific list,
each formatted as "- area: advice", in failure order. -/
def tips_for (catalog : List TestRow) (failed : List Nat) (l : Lift) :
    List String :=
  failed.filterMap (fun idx =>
    match (row_at catalog idx).solution_4 with
    | some advice =>
        if (row_at catalog idx).area ∈ LIFT_SPECIFIC_TESTS l then
          some ("- " ++ (row_at catalog idx).area ++ ": " ++ advice)
        else none
    | none => none)

/-- The contribution of one failed row to one lift's tips: the formatted tip
when the row's Solution_4 is present and the row's area is in the lift's
specific list, nothing otherwise. -/
def tip_contribution (catalog : List TestRow) (idx : Nat) (l : Lift) :
    List String :=
  match (row_at catalog idx).solution_4 with
  | some advice =>
      if (row_at catalog idx).area ∈ LIFT_SPECIFIC_TESTS l then
        ["- " ++ (row_at catalog idx).area ++ ": " ++ advice]
      else []
  | none => []

/-- The per-lift tip sections of main.py lines 225-229: for each lift in
order, a "For lift:" header followed by its tips, with the whole section
omitted when the lift gathered no tips. -/
def tip_sections (tips : List (Lift × List String)) : List String :=
  tips.flatMap (fun p =>
    if p.2 = [] then [] else ("\nFor " ++ liftName p.1 ++ ":") :: p.2)

/-- The printed output of generate_warmup_plan (main.py lines 142-229), one
list entry per print call. -/
def generate_warmup_plan (assessment_data : List TestRow)
    (failed_indices : List Nat) (selected_lifts : List Lift) : List String :=
  if failed_indices = [] then
    ["\n=== YOUR WARMUP PLAN ===\n",
     "Congratulations! You passed all tests. Here\x27s a basic warmup routine:",
     "1. 5-10 minutes of light cardio (rowing, cycling, or jumping jacks)"] ++
    selected_lifts.flatMap (standard_progression "2")
  else
    ["\n=== YOUR CUSTOMIZED WARMUP PLAN ===\n",
     "Based on your assessment, here\x27s your personalized warmup routine:",
     "\n1. Start with 5-10 minutes of light cardio (rowing, cycling, or jumping jacks)",
     "\n2. Targeted mobility/stability work:",
     "\nYour top issues are in these areas (prioritized):"] ++
    (sorted_areas assessment_data failed_indices).map (fun p => "- " ++ p.1) ++
    ["\nPerform these corrective exercises:"] ++
    (corrective_blocks assessment_data failed_indices).flatMap id ++
    selected_lifts.flatMap (standard_progression "3") ++
    ["\n=== IMPLEMENTATION NOTES ===",
     "For your " ++ String.intercalate ", " (selected_lifts.map liftName) ++
       " today, consider these adjustments:"] ++
    tip_sections (lift_specific_tips assessment_data failed_indices selected_lifts)

/-- The CSV load of main.py lines 47-54.  The outcome of pandas read_csv is a
parameter: on success no line is printed and the catalog is returned, on any
exception the error message is printed and None is returned. -/
def load_assessment_data (raw : Except String (List TestRow)) :
    List String × Option (List TestRow) :=
  match raw with
  | .ok df => ([], some df)
  | .error e => (["Error loading CSV file: " ++ e], none)

/-- The lift selection of main.py lines 57-75: each of the three prompts
selects its lift exactly when the lowercased answer is y, in the fixed order
squat, bench, deadlift. -/
def select_lifts (answers : String × String × String) : List Lift :=
  (if lower_string answers.1 == "y" then [Lift.squat] else []) ++
  (if lower_string answers.2.1 == "y" then [Lift.bench] else []) ++
  (if lower_string answers.2.2 == "y" then [Lift.deadlift] else [])

/-- The top level of run_assessment (main.py lines 88-139) as a function from
the load outcome and the console inputs to the printed lines (the per-row
assessment display is accounted in run_tests' shown component).  A failed
load returns the load error output alone: no lift-selection prompt, no
assessment prompt, no plan. -/
def run_assessment (raw : Except String (List TestRow))
    (lift_answers : String × String × String) (test_inputs : List String) :
    List String :=
  match (load_assessment_data raw).2 with
  | none => (load_assessment_data raw).1
  | some assessment_data =>
      (load_assessment_data raw).1 ++
      ["\n=== LIFT SELECTION ===\n",
       "Which lift(s) will you be performing today?",
       "\nSelected lifts: " ++
         String.intercalate ", "
           ((select_lifts lift_answers).map liftName),
       "\n=== POWERLIFTING MOBILITY ASSESSMENT ===\n",
       "You\x27ll be assessed on " ++
         toString (get_relevant_tests (select_lifts lift_answers)).card ++
         " relevant tests for your selected lift(s).",
       "Answer \x27y\x27 if you failed the test, \x27n\x27 if you passed, or \x27skip\x27 to skip a test.\n"] ++
      match run_tests assessment_data.enum
          (get_relevant_tests (select_lifts lift_answers)) test_inputs with
      | none => []
      | some (failed_tests, _, _) =>
          generate_warmup_plan assessment_data failed_tests
            (select_lifts lift_answers)

/-- A concrete catalog row for witnesses. -/
def mk_row (area test : String) (s1 s2 s3 s4 : Option String) : TestRow :=
  ⟨area, test, "", "", s1, s2, s3, s4⟩

theorem mem_foldl_insert (tests : List String) (acc : Finset String)
    (a : String) :
    a ∈ tests.foldl (fun acc2 t => insert t acc2) acc ↔
      a ∈ acc ∨ a ∈ tests := by
  induction tests generalizing acc with
  | nil => simp
  | cons t ts ih =>
      simp only [List.foldl_cons, ih, Finset.mem_insert, List.mem_cons]
      tauto

theorem mem_foldl_lifts (lifts : List Lift) (acc : Finset String) (a : String) :
    a ∈ lifts.foldl
        (fun acc lift =>
          (LIFT_SPECIFIC_TESTS lift).foldl (fun acc2 t => insert t acc2) acc)
        acc ↔
      a ∈ acc ∨ ∃ l ∈ lifts, a ∈ LIFT_SPECIFIC_TESTS l := by
  induction lifts generalizing acc with
  | nil => simp
  | cons l ls ih =>
      simp only [List.foldl_cons, ih, mem_foldl_insert, List.mem_cons]
      constructor
      · rintro (⟨h | h⟩ | ⟨l', hl', h⟩)
        · exact Or.inl h
        · exact Or.inr ⟨l, Or.inl rfl, h⟩
        · exact Or.inr ⟨l', Or.inr hl', h⟩
      · rintro (h | ⟨l', hl' | hl', h⟩)
        · exact Or.inl (Or.inl h)
        · exact Or.inl (Or.inr (hl' ▸ h))
        · exact Or.inr ⟨l', hl', h⟩

theorem mem_get_relevant_tests (lifts : List Lift) (a : String) :
    a ∈ get_relevant_tests lifts ↔
      a ∈ FUNDAMENTAL_TESTS ∨ ∃ l ∈ lifts, a ∈ LIFT_SPECIFIC_TESTS l := by
  unfold get_relevant_tests
  rw [mem_foldl_lifts, List.mem_toFinset]

/-- C1: for every lift selection, an area is in the set returned by
get_relevant_tests iff it is a fundamental test or a lift-specific test of
some selected lift; consequently the result always contains every fundamental
test, and for the empty selection it is exactly the set of fundamental
tests. -/
theorem C1_relevant_area_set (lifts : List Lift) :
    (∀ a : String, a ∈ get_relevant_tests lifts ↔
        a ∈ FUNDAMENTAL_TESTS ∨ ∃ l ∈ lifts, a ∈ LIFT_SPECIFIC_TESTS l) ∧
    (∀ a ∈ FUNDAMENTAL_TESTS, a ∈ get_relevant_tests lifts) ∧
    get_relevant_tests [] = FUNDAMENTAL_TESTS.toFinset := by
  refine ⟨fun a => mem_get_relevant_tests lifts a, fun a ha => ?_, rfl⟩
  exact (mem_get_relevant_tests lifts a).mpr (Or.inl ha)

/-- Witness for C1 at the concrete selection [squat]. -/
theorem C1_relevant_area_set_witness :
    "General Pain Assessment" ∈ get_relevant_tests [Lift.squat] :=
  (C1_relevant_area_set [Lift.squat]).2.1 "General Pain Assessment" (by decide)

/-- C8: get_relevant_tests is deterministic (two calls on the same selection
give the same set) and its value depends on the selection only as a set: it is
invariant under permuting the selection list, and the result is a Finset, so
equality is set equality independent of element order. -/
theorem C8_deterministic_idempotent :
    (∀ lifts : List Lift, get_relevant_tests lifts = get_relevant_tests lifts) ∧
    (∀ l₁ l₂ : List Lift, l₁.Perm l₂ →
        get_relevant_tests l₁ = get_relevant_tests l₂) := by
  refine ⟨fun _ => rfl, fun l₁ l₂ hp => ?_⟩
  ext a
  rw [mem_get_relevant_tests, mem_get_relevant_tests]
  constructor
  · rintro (h | ⟨l, hl, h⟩)
    · exact Or.inl h
    · exact Or.inr ⟨l, hp.mem_iff.mp hl, h⟩
  · rintro (h | ⟨l, hl, h⟩)
    · exact Or.inl h
    · exact Or.inr ⟨l, hp.mem_iff.mpr hl, h⟩

/-- Witness for C8: swapping the selection order leaves the set unchanged. -/
theorem C8_deterministic_idempotent_witness :
    get_relevant_tests [Lift.squat, Lift.bench] =
      get_relevant_tests [Lift.bench, Lift.squat] :=
  C8_deterministic_idempotent.2 _ _ (List.Perm.swap Lift.bench Lift.squat [])

theorem map_range_min_getD {β : Type} (l : List Nat) (n : Nat) (f : Nat → β) :
    (List.range (min n l.length)).map (fun i => f (l.getD i 0)) =
      (l.take n).map f := by
  induction l generalizing n with
  | nil => simp
  | cons a t ih =>
      cases n with
      | zero => simp
      | succ n =>
          rw [List.length_cons, Nat.succ_min_succ, List.range_succ_eq_map,
            List.map_cons, List.map_map]
          simp only [Function.comp_def, List.getD_cons_zero,
            List.getD_cons_succ, List.take_succ_cons, List.map_cons]
          rw [ih]

theorem tips_for_cons (catalog : List TestRow) (idx : Nat) (rest : List Nat)
    (l : Lift) :
    tips_for catalog (idx :: rest) l =
      tip_contribution catalog idx l ++ tips_for catalog rest l := by
  unfold tips_for tip_contribution
  rw [List.filterMap_cons]
  cases h : (row_at catalog idx).solution_4 with
  | none => simp [h]
  | some a =>
      by_cases hm : (row_at catalog idx).area ∈ LIFT_SPECIFIC_TESTS l <;>
        simp [h, hm]

theorem tips_for_filter_isSome (catalog : List TestRow) (failed : List Nat)
    (l : Lift) :
    tips_for catalog
        (failed.filter (fun idx => (row_at catalog idx).solution_4.isSome)) l =
      tips_for catalog failed l := by
  induction failed with
  | nil => rfl
  | cons idx rest ih =>
      rw [List.filter_cons, tips_for_cons]
      cases h : (row_at catalog idx).solution_4 with
      | none =>
          have hc : tip_contribution catalog idx l = [] := by
            unfold tip_contribution
            rw [h]
          simp [h, hc, ih]
      | some a =>
          simp only [h, Option.isSome_some, if_true]
          rw [tips_for_cons, ih]

/-- C6: with an empty FailedTests list, generate_warmup_plan emits exactly the
all-passed template — congratulation, one cardio line, and the fixed
bar-weight progression for each selected lift — independent of the catalog
content, with no corrective-exercise section, no top-issues list and no
implementation notes. -/
theorem C6_all_passed_path (assessment_data : List TestRow)
    (selected_lifts : List Lift) :
    generate_warmup_plan assessment_data [] selected_lifts =
      all_passed_template selected_lifts ∧
    "\nPerform these corrective exercises:" ∉
      generate_warmup_plan assessment_data [] selected_lifts ∧
    "\nYour top issues are in these areas (prioritized):" ∉
      generate_warmup_plan assessment_data [] selected_lifts ∧
    "\n=== IMPLEMENTATION NOTES ===" ∉
      generate_warmup_plan assessment_data [] selected_lifts := by
  have h : generate_warmup_plan assessment_data [] selected_lifts =
      all_passed_template selected_lifts := rfl
  refine ⟨h, ?_, ?_, ?_⟩ <;>
    · rw [h]
      intro hmem
      unfold all_passed_template at hmem
      rcases List.mem_append.mp hmem with h1 | h2
      · revert h1
        decide
      · rcases List.mem_flatMap.mp h2 with ⟨l, -, hl⟩
        cases l <;> revert hl <;> decide

/-- Witness for C6 at the concrete selection [squat] and a one-row catalog. -/
theorem C6_all_passed_path_witness :
    generate_warmup_plan [mk_row "Hip Flexion" "t" none none none none] []
        [Lift.squat] =
      all_passed_template [Lift.squat] :=
  (C6_all_passed_path [mk_row "Hip Flexion" "t" none none none none]
    [Lift.squat]).1

/-- C4: generate_warmup_plan prints exactly min 5 (number of failed rows)
corrective-exercise blocks, taken from the first min 5 failed rows in
original failure order, each block being the row's area/test header followed
by its first three solutions numbered 1-3. -/
theorem C4_corrective_blocks (catalog : List TestRow) (failed : List Nat) :
    corrective_blocks catalog failed =
      (failed.take 5).map (fun idx => exercise_block (row_at catalog idx)) ∧
    (corrective_blocks catalog failed).length = min 5 failed.length ∧
    ∀ row : TestRow, exercise_block row =
      ["\n-- " ++ row.area ++ ": " ++ row.test ++ " --",
       "  1. " ++ render_cell row.solution_1,
       "  2. " ++ render_cell row.solution_2,
       "  3. " ++ render_cell row.solution_3] := by
  refine ⟨?_, ?_, fun row => rfl⟩
  · unfold corrective_blocks
    exact map_range_min_getD failed 5 (fun idx => exercise_block (row_at catalog idx))
  · unfold corrective_blocks
    rw [List.length_map, List.length_range]

/-- Witness for C4: seven failed rows yield exactly five blocks. -/
theorem C4_corrective_blocks_witness :
    (corrective_blocks [mk_row "A" "t" none none none none]
        [0, 0, 0, 0, 0, 0, 0]).length = 5 :=
  ((C4_corrective_blocks [mk_row "A" "t" none none none none]
    [0, 0, 0, 0, 0, 0, 0]).2.1).trans (by decide)

/-- C10: in a corrective-exercise block all three solution cells are printed
unconditionally, a missing cell rendering as the "nan" placeholder, whereas a
Solution_4 tip is emitted only when the cell is present: filtering the failed
rows down to those with a present Solution_4 leaves the tips unchanged. -/
theorem C10_solutions_unconditional (catalog : List TestRow)
    (failed : List Nat) (l : Lift) :
    (∀ row : TestRow, exercise_block row =
      ["\n-- " ++ row.area ++ ": " ++ row.test ++ " --",
       "  1. " ++ render_cell row.solution_1,
       "  2. " ++ render_cell row.solution_2,
       "  3. " ++ render_cell row.solution_3]) ∧
    render_cell none = "nan" ∧
    tips_for catalog failed l =
      tips_for catalog
        (failed.filter (fun idx => (row_at catalog idx).solution_4.isSome))
        l :=
  ⟨fun _ => rfl, rfl, (tips_for_filter_isSome catalog failed l).symm⟩

/-- Witness for C10: a row with a missing Solution_2 still prints a second
solution line, with the nan placeholder. -/
theorem C10_solutions_unconditional_witness :
    exercise_block (mk_row "A" "T" (some "s1") none (some "s3") none) =
      ["\n-- A: T --", "  1. s1", "  2. nan", "  3. s3"] :=
  (C10_solutions_unconditional [] [] Lift.squat).1
    (mk_row "A" "T" (some "s1") none (some "s3") none)

theorem tip_step_eq (catalog : List TestRow) (selected_lifts : List Lift)
    (g : Lift → List String) (idx : Nat) :
    tip_step catalog (selected_lifts.map (fun l => (l, g l))) idx =
      selected_lifts.map (fun l => (l, g l ++ tip_contribution catalog idx l)) := by
  unfold tip_step tip_contribution
  cases h : (row_at catalog idx).solution_4 with
  | none => simp
  | some advice =>
      dsimp only
      rw [List.map_map]
      apply List.map_congr_left
      intro l _
      by_cases hm : (row_at catalog idx).area ∈ LIFT_SPECIFIC_TESTS l <;>
        simp [hm]

theorem tip_fold (catalog : List TestRow) (selected_lifts : List Lift) :
    ∀ (failed : List Nat) (g : Lift → List String),
      failed.foldl (tip_step catalog)
          (selected_lifts.map (fun l => (l, g l))) =
        selected_lifts.map (fun l => (l, g l ++ tips_for catalog failed l)) := by
  intro failed
  induction failed with
  | nil =>
      intro g
      simp [tips_for]
  | cons idx rest ih =>
      intro g
      rw [List.foldl_cons, tip_step_eq, ih]
      apply List.map_congr_left
      intro l _
      rw [tips_for_cons, List.append_assoc]

theorem lift_specific_tips_eq (catalog : List TestRow) (failed : List Nat)
    (selected_lifts : List Lift) :
    lift_specific_tips catalog failed selected_lifts =
      selected_lifts.map (fun l => (l, tips_for catalog failed l)) := by
  unfold lift_specific_tips
  have h := tip_fold catalog selected_lifts failed (fun _ => [])
  simpa using h

theorem tip_sections_eq (tips : List (Lift × List String)) :
    tip_sections tips =
      (tips.filter (fun p => decide (p.2 ≠ []))).flatMap
        (fun p => ("\nFor " ++ liftName p.1 ++ ":") :: p.2) := by
  induction tips with
  | nil => rfl
  | cons p ps ih =>
      have hcons : tip_sections (p :: ps) =
          (if p.2 = [] then []
           else ("\nFor " ++ liftName p.1 ++ ":") :: p.2) ++
            tip_sections ps := by
        unfold tip_sections
        rw [List.flatMap_cons]
      rw [hcons, ih, List.filter_cons]
      by_cases h : p.2 = [] <;> simp [h]

/-- C5: the tips of the implementation-notes section are grouped by selected
lift in selection order; each selected lift receives, in failure order, the
formatted tip of every failed row whose Solution_4 is present and whose area
is in that lift's specific list (so one tip can be attributed to several
lifts); and a lift with no tips gets no section.  Concretely, a failed
Lat Flexibility row with a Solution_4 tip is attributed to both squat and
bench when both are selected. -/
theorem C5_tip_attribution (catalog : List TestRow) (failed : List Nat)
    (selected_lifts : List Lift) :
    lift_specific_tips catalog failed selected_lifts =
      selected_lifts.map (fun l => (l, tips_for catalog failed l)) ∧
    tip_sections (lift_specific_tips catalog failed selected_lifts) =
      ((selected_lifts.map (fun l => (l, tips_for catalog failed l))).filter
          (fun p => decide (p.2 ≠ []))).flatMap
        (fun p => ("\nFor " ++ liftName p.1 ++ ":") :: p.2) ∧
    lift_specific_tips
        [mk_row "Lat Flexibility" "t" none none none (some "cue")] [0]
        [Lift.squat, Lift.bench] =
      [(Lift.squat, ["- Lat Flexibility: cue"]),
       (Lift.bench, ["- Lat Flexibility: cue"])] := by
  refine ⟨lift_specific_tips_eq catalog failed selected_lifts, ?_, by decide⟩
  rw [lift_specific_tips_eq, tip_sections_eq]

/-- Witness for C5: with squat selected alone, the Lat Flexibility tip goes
to squat. -/
theorem C5_tip_attribution_witness :
    lift_specific_tips
        [mk_row "Lat Flexibility" "t" none none none (some "cue")] [0]
        [Lift.squat] =
      [Lift.squat].map
        (fun l =>
          (l, tips_for [mk_row "Lat Flexibility" "t" none none none (some "cue")]
            [0] l)) :=
  (C5_tip_attribution [mk_row "Lat Flexibility" "t" none none none (some "cue")]
    [0] [Lift.squat]).1

theorem tips_for_filter_not_fundamental (catalog : List TestRow)
    (failed : List Nat) (l : Lift) :
    tips_for catalog
        (failed.filter (fun idx => decide (area_of catalog idx ∉ FUNDAMENTAL_TESTS)))
        l =
      tips_for catalog failed l := by
  induction failed with
  | nil => rfl
  | cons idx rest ih =>
      rw [List.filter_cons, tips_for_cons]
      by_cases h : area_of catalog idx ∈ FUNDAMENTAL_TESTS
      · have hc : tip_contribution catalog idx l = [] := by
          unfold tip_contribution
          cases h4 : (row_at catalog idx).solution_4 with
          | none => rfl
          | some advice =>
              have hnot : (row_at catalog idx).area ∉ LIFT_SPECIFIC_TESTS l := by
                have hfund : ∀ l' : Lift, ∀ a ∈ FUNDAMENTAL_TESTS,
                    a ∉ LIFT_SPECIFIC_TESTS l' := by
                  intro l'
                  cases l' <;> decide
                exact hfund l (area_of catalog idx) h
              simp [hnot]
        rw [if_neg (by simpa using h), ih, hc, List.nil_append]
      · rw [if_pos (by simpa using h), tips_for_cons, ih]

/-- C9: no fundamental area occurs in any lift's specific list, so a failed
row whose area is fundamental never contributes an implementation tip
(dropping all fundamental-area rows from the failed list leaves every lift's
tips unchanged), and with an empty lift selection the tips table and the
printed tip sections are empty no matter which rows failed. -/
theorem C9_fundamental_rows_never_tipped (catalog : List TestRow)
    (failed : List Nat) :
    (∀ l : Lift, ∀ a ∈ FUNDAMENTAL_TESTS, a ∉ LIFT_SPECIFIC_TESTS l) ∧
    (∀ l : Lift,
      tips_for catalog
          (failed.filter
            (fun idx => decide (area_of catalog idx ∉ FUNDAMENTAL_TESTS))) l =
        tips_for catalog failed l) ∧
    lift_specific_tips catalog failed [] = [] ∧
    tip_sections (lift_specific_tips catalog failed []) = [] := by
  refine ⟨?_, fun l => tips_for_filter_not_fundamental catalog failed l, ?_, ?_⟩
  · intro l
    cases l <;> decide
  · rw [lift_specific_tips_eq]
    rfl
  · rw [lift_specific_tips_eq]
    rfl

/-- Witness for C9: the CNS Fatigue fundamental area is in no lift-specific
list. -/
theorem C9_fundamental_rows_never_tipped_witness :
    "CNS Fatigue" ∉ LIFT_SPECIFIC_TESTS Lift.deadlift :=
  (C9_fundamental_rows_never_tipped [] []).1 Lift.deadlift "CNS Fatigue"
    (by decide)

/-- C7: when the CSV load fails, the run prints the load error message and
aborts: its output is exactly that one line, with no lift-selection prompt,
no assessment prompt and no warmup-plan output of either mode. -/
theorem C7_load_failure_aborts (e : String)
    (lift_answers : String × String × String) (test_inputs : List String) :
    run_assessment (.error e) lift_answers test_inputs =
      ["Error loading CSV file: " ++ e] ∧
    "\n=== LIFT SELECTION ===\n" ∉
      run_assessment (.error e) lift_answers test_inputs ∧
    "\n=== POWERLIFTING MOBILITY ASSESSMENT ===\n" ∉
      run_assessment (.error e) lift_answers test_inputs ∧
    "\n=== YOUR WARMUP PLAN ===\n" ∉
      run_assessment (.error e) lift_answers test_inputs ∧
    "\n=== YOUR CUSTOMIZED WARMUP PLAN ===\n" ∉
      run_assessment (.error e) lift_answers test_inputs := by
  have h : run_assessment (.error e) lift_answers test_inputs =
      ["Error loading CSV file: " ++ e] := rfl
  refine ⟨h, ?_, ?_, ?_, ?_⟩ <;>
    · rw [h]
      intro hmem
      have heq := List.mem_singleton.mp hmem
      have h2 := congrArg (fun s => s.data.head?) heq
      simp only [String.data_append, List.head?_append] at h2
      simp at h2

/-- Witness for C7 with a concrete error message. -/
theorem C7_load_failure_aborts_witness :
    run_assessment (.error "No such file") ("y", "n", "n") [] =
      ["Error loading CSV file: No such file"] :=
  (C7_load_failure_aborts "No such file" ("y", "n", "n") []).1

theorem ask_until_valid_sound (inputs : List String) :
    ∀ (r : String) (rest : List String),
      ask_until_valid inputs = some (r, rest) → valid_response r = true := by
  induction inputs with
  | nil =>
      intro r rest h
      exact absurd h (by simp [ask_until_valid])
  | cons i is ih =>
      intro r rest h
      unfold ask_until_valid at h
      by_cases hv : valid_response (lower_string i)
      · rw [if_pos hv] at h
        injection h with h1
        injection h1 with h2 h3
        rw [← h2]
        exact hv
      · rw [if_neg hv] at h
        exact ih r rest h

theorem ask_until_valid_invalid (bad : String) (inputs : List String)
    (h : valid_response (lower_string bad) = false) :
    ask_until_valid (bad :: inputs) = ask_until_valid inputs := by
  simp only [ask_until_valid]
  rw [if_neg (by simp [h])]

theorem run_tests_characterisation (rows : List (Nat × TestRow)) :
    ∀ (relevant : Finset String) (inputs : List String)
      (failed shown : List Nat) (rem : List String),
      run_tests rows relevant inputs = some (failed, shown, rem) →
      shown = (rows.filter (fun p => decide (p.2.area ∈ relevant))).map
          (fun p => p.1) ∧
      ∃ log : List (Nat × String),
        response_log rows relevant inputs = some (log, rem) ∧
        log.map (fun p => p.1) = shown ∧
        (∀ p ∈ log, valid_response p.2 = true) ∧
        failed = (log.filter (fun p => p.2 == "y")).map (fun p => p.1) := by
  induction rows with
  | nil =>
      intro relevant inputs failed shown rem h
      simp only [run_tests, Option.some.injEq, Prod.mk.injEq] at h
      obtain ⟨hf, hs, hr⟩ := h
      subst hf hs hr
      exact ⟨rfl, [], rfl, rfl, by simp, rfl⟩
  | cons hd rest ih =>
      intro relevant inputs failed shown rem h
      obtain ⟨index, row⟩ := hd
      by_cases hrel : row.area ∈ relevant
      · cases hask : ask_until_valid inputs with
        | none =>
            simp [run_tests, if_pos hrel, hask] at h
        | some pr =>
            obtain ⟨response, inputs'⟩ := pr
            cases hrec : run_tests rest relevant inputs' with
            | none =>
                simp [run_tests, if_pos hrel, hask, hrec] at h
            | some tr =>
                obtain ⟨f', s', rem'⟩ := tr
                simp only [run_tests, if_pos hrel, hask, hrec,
                  Option.some.injEq, Prod.mk.injEq] at h
                obtain ⟨hf, hs, hr⟩ := h
                subst hf hs hr
                obtain ⟨hshown', log', hlog, hlogmap, hvalid, hfail⟩ :=
                  ih relevant inputs' f' s' rem' hrec
                constructor
                · rw [List.filter_cons, if_pos (by simpa using hrel),
                    List.map_cons, hshown']
                · refine ⟨(index, response) :: log', ?_, ?_, ?_, ?_⟩
                  · simp only [response_log, if_pos hrel, hask, hlog]
                  · rw [List.map_cons, hlogmap]
                  · intro p hp
                    rcases List.mem_cons.mp hp with hp1 | hp2
                    · rw [hp1]
                      exact ask_until_valid_sound inputs response inputs' hask
                    · exact hvalid p hp2
                  · rw [List.filter_cons]
                    by_cases hy : (response == "y") = true <;> simp [hy, hfail]
      · simp only [run_tests, if_neg hrel] at h
        obtain ⟨hshown', log', hlog, hlogmap, hvalid, hfail⟩ :=
          ih relevant inputs failed shown rem h
        refine ⟨?_, log', ?_, hlogmap, hvalid, hfail⟩
        · rw [List.filter_cons, if_neg (by simpa using hrel)]
          exact hshown'
        · simp only [response_log, if_neg hrel, hlog]

/-- C2: for every catalog, relevant-area set and input stream, a completed
assessment loop shows exactly the rows whose area is relevant, in catalog
order; every shown row resolves to a response in {y, n, skip}
(case-insensitive) recorded in the response log in the same order; the failed
list is exactly the indices of the shown rows whose final response is "y", in
catalog order; and an invalid response re-prompts without advancing to the
next row. -/
theorem C2_assessment_loop :
    (∀ (rows : List (Nat × TestRow)) (relevant : Finset String)
        (inputs : List String) (failed shown : List Nat) (rem : List String),
      run_tests rows relevant inputs = some (failed, shown, rem) →
      shown = (rows.filter (fun p => decide (p.2.area ∈ relevant))).map
          (fun p => p.1) ∧
      ∃ log : List (Nat × String),
        response_log rows relevant inputs = some (log, rem) ∧
        log.map (fun p => p.1) = shown ∧
        (∀ p ∈ log, valid_response p.2 = true) ∧
        failed = (log.filter (fun p => p.2 == "y")).map (fun p => p.1)) ∧
    (∀ (index : Nat) (row : TestRow) (rest : List (Nat × TestRow))
        (relevant : Finset String) (inputs : List String) (bad : String),
      row.area ∈ relevant → valid_response (lower_string bad) = false →
      run_tests ((index, row) :: rest) relevant (bad :: inputs) =
        run_tests ((index, row) :: rest) relevant inputs) := by
  refine ⟨fun rows => run_tests_characterisation rows, ?_⟩
  intro index row rest relevant inputs bad hrel hbad
  simp only [run_tests, if_pos hrel]
  rw [ask_until_valid_invalid bad inputs hbad]

/-- Witness for C2 at a concrete two-row catalog, empty lift selection and an
invalid first input: the fundamental row is answered "y" after a re-prompt,
the lift-specific row is never shown. -/
theorem C2_assessment_loop_witness :
    ∃ log : List (Nat × String),
      response_log
          [(0, mk_row "General Pain Assessment" "t" none none none none),
           (1, mk_row "Ankle Mobility" "t" none none none none)]
          (get_relevant_tests []) ["maybe", "Y"] = some (log, []) ∧
      log.map (fun p => p.1) = [0] ∧
      (∀ p ∈ log, valid_response p.2 = true) ∧
      [0] = (log.filter (fun p => p.2 == "y")).map (fun p => p.1) :=
  (C2_assessment_loop.1
    [(0, mk_row "General Pain Assessment" "t" none none none none),
     (1, mk_row "Ankle Mobility" "t" none none none none)]
    (get_relevant_tests []) ["maybe", "Y"] [0] [0] [] (by decide)).2

theorem mem_dedup_keys (as : List String) :
    ∀ a : String, a ∈ dedup_keys as ↔ a ∈ as := by
  induction as with
  | nil => simp [dedup_keys]
  | cons x xs ih =>
      intro a
      simp only [dedup_keys, List.mem_cons, List.mem_filter, ih, bne_iff_ne,
        ne_eq]
      by_cases h : a = x
      · simp [h]
      · simp [h]

theorem nodup_dedup_keys : ∀ as : List String, (dedup_keys as).Nodup := by
  intro as
  induction as with
  | nil => simp [dedup_keys]
  | cons x xs ih =>
      rw [dedup_keys, List.nodup_cons]
      refine ⟨?_, ih.filter _⟩
      intro hmem
      rcases List.mem_filter.mp hmem with ⟨-, hne⟩
      simp at hne

theorem dedup_keys_append_one (a : String) :
    ∀ seen : List String,
      dedup_keys (seen ++ [a]) =
        if a ∈ seen then dedup_keys seen else dedup_keys seen ++ [a] := by
  intro seen
  induction seen with
  | nil => simp [dedup_keys]
  | cons s ss ih =>
      simp only [List.cons_append, dedup_keys, List.append_eq]
      rw [ih]
      by_cases hin : a ∈ ss
      · rw [if_pos hin,
          if_pos (show a ∈ s :: ss from List.mem_cons.mpr (Or.inr hin))]
      · rw [if_neg hin]
        by_cases has : a = s
        · rw [if_pos (show a ∈ s :: ss from List.mem_cons.mpr (Or.inl has)),
            List.filter_append]
          subst has
          simp
        · rw [if_neg (show a ∉ s :: ss by simp [has, hin]),
            List.filter_append]
          simp [has]

theorem bump_fold_spec :
    ∀ (as seen : List String),
      as.foldl bump_area
          ((dedup_keys seen).map (fun x => (x, seen.count x))) =
        (dedup_keys (seen ++ as)).map
          (fun x => (x, (seen ++ as).count x)) := by
  intro as
  induction as with
  | nil =>
      intro seen
      simp
  | cons a rest ih =>
      intro seen
      rw [List.foldl_cons]
      have hstep :
          bump_area ((dedup_keys seen).map (fun x => (x, seen.count x))) a =
            (dedup_keys (seen ++ [a])).map
              (fun x => (x, (seen ++ [a]).count x)) := by
        by_cases hin : a ∈ seen
        · have hany :
              ((dedup_keys seen).map (fun x => (x, seen.count x))).any
                (fun p => p.1 == a) = true := by
            rw [List.any_eq_true]
            exact ⟨(a, seen.count a),
              List.mem_map_of_mem _ ((mem_dedup_keys seen a).mpr hin),
              by simp⟩
          unfold bump_area
          rw [if_pos hany, dedup_keys_append_one, if_pos hin, List.map_map]
          apply List.map_congr_left
          intro x hx
          simp only [Function.comp_def]
          by_cases hxa : x = a
          · subst hxa
            simp [List.count_append]
          · simp [hxa, List.count_append]
        · have hany :
              ((dedup_keys seen).map (fun x => (x, seen.count x))).any
                (fun p => p.1 == a) = false := by
            rw [List.any_eq_false]
            rintro ⟨x, c⟩ hmem
            simp only [List.mem_map] at hmem
            obtain ⟨y, hy, heq⟩ := hmem
            injection heq with h1 h2
            subst h1
            intro hya
            have hy_eq : y = a := by simpa using hya
            exact hin (hy_eq ▸ (mem_dedup_keys seen y).mp hy)
          unfold bump_area
          rw [if_neg (by simp [hany]), dedup_keys_append_one, if_neg hin,
            List.map_append]
          congr 1
          · apply List.map_congr_left
            intro x hx
            have hxs : x ∈ seen := (mem_dedup_keys seen x).mp hx
            have hxa : x ≠ a := fun h => hin (h ▸ hxs)
            simp [List.count_append, hxa]
          · have hz : seen.count a = 0 := List.count_eq_zero.mpr hin
            simp [List.count_append, hz]
      have hsplit : seen ++ a :: rest = (seen ++ [a]) ++ rest :=
        List.append_cons seen a rest
      rw [hstep, hsplit]
      exact ih (seen ++ [a])

theorem area_counts_eq (catalog : List TestRow) (failed : List Nat) :
    area_counts catalog failed =
      (dedup_keys (failed.map (area_of catalog))).map
        (fun a => (a, (failed.map (area_of catalog)).count a)) := by
  unfold area_counts
  have hmap :
      (failed.map (area_of catalog)).foldl bump_area [] =
        failed.foldl (fun acc idx => bump_area acc (area_of catalog idx)) [] :=
    List.foldl_map _ _ _ _
  rw [← hmap]
  have h := bump_fold_spec (failed.map (area_of catalog)) []
  simpa [dedup_keys] using h

theorem count_ge_trans (a b c : String × Nat) :
    count_ge a b → count_ge b c → count_ge a c := by
  simp only [count_ge, decide_eq_true_eq]
  omega

theorem count_ge_total (a b : String × Nat) :
    count_ge a b || count_ge b a := by
  simp only [count_ge, Bool.or_eq_true, decide_eq_true_eq]
  omega

/-- C3: the top-issues list is the insertion-ordered area_counts dict — the
distinct failed areas in first-encounter order, each with its occurrence
count — stably sorted by descending count: the sorted list is a permutation
of the counts list, its counts are non-increasing, and the entries of any
fixed count keep their encounter order (filtering either list to one count
value gives the same list).  In particular failures over the rows
[Hip Flexion, Lat Flexibility, Hip Flexion] sort to Hip Flexion (count 2)
before Lat Flexibility (count 1). -/
theorem C3_sorted_areas_stable (catalog : List TestRow) (failed : List Nat) :
    area_counts catalog failed =
      (dedup_keys (failed.map (area_of catalog))).map
        (fun a => (a, (failed.map (area_of catalog)).count a)) ∧
    ((area_counts catalog failed).map Prod.fst).Nodup ∧
    (∀ a : String,
      a ∈ (area_counts catalog failed).map Prod.fst ↔
        a ∈ failed.map (area_of catalog)) ∧
    (sorted_areas catalog failed).Perm (area_counts catalog failed) ∧
    (sorted_areas catalog failed).Pairwise (fun x y => y.2 ≤ x.2) ∧
    (∀ n : Nat,
      (sorted_areas catalog failed).filter (fun p => p.2 == n) =
        (area_counts catalog failed).filter (fun p => p.2 == n)) ∧
    sorted_areas
        [mk_row "Hip Flexion" "t" none none none none,
         mk_row "Lat Flexibility" "t" none none none none,
         mk_row "Hip Flexion" "u" none none none none] [0, 1, 2] =
      [("Hip Flexion", 2), ("Lat Flexibility", 1)] := by
  refine ⟨area_counts_eq catalog failed, ?_, ?_, ?_, ?_, ?_, ?_⟩
  · rw [area_counts_eq, List.map_map]
    have : (Prod.fst ∘ fun a : String =>
        (a, (failed.map (area_of catalog)).count a)) = id := rfl
    rw [this, List.map_id]
    exact nodup_dedup_keys _
  · intro a
    rw [area_counts_eq, List.map_map]
    have : (Prod.fst ∘ fun a : String =>
        (a, (failed.map (area_of catalog)).count a)) = id := rfl
    rw [this, List.map_id, mem_dedup_keys]
  · exact List.mergeSort_perm _ _
  · have h := List.sorted_mergeSort count_ge_trans count_ge_total
      (area_counts catalog failed)
    exact h.imp (fun hxy => by simpa [count_ge] using hxy)
  · intro n
    have hpair :
        ((area_counts catalog failed).filter
            (fun p => p.2 == n)).Pairwise (fun x y => count_ge x y = true) := by
      apply List.pairwise_of_forall_mem_list
      intro x hx y hy
      have hx2 : x.2 = n := by simpa using (List.mem_filter.mp hx).2
      have hy2 : y.2 = n := by simpa using (List.mem_filter.mp hy).2
      simp [count_ge, hx2, hy2]
    have hsub :
        List.Sublist
          ((area_counts catalog failed).filter (fun p => p.2 == n))
          (sorted_areas catalog failed) :=
      List.sublist_mergeSort count_ge_trans count_ge_total hpair
        (List.filter_sublist _)
    have hsub2 := hsub.filter (fun p => p.2 == n)
    rw [List.filter_filter] at hsub2
    simp only [Bool.and_self] at hsub2
    have hperm :
        List.Perm
          ((sorted_areas catalog failed).filter (fun p => p.2 == n))
          ((area_counts catalog failed).filter (fun p => p.2 == n)) :=
      (List.mergeSort_perm (area_counts catalog failed) count_ge).filter _
    exact (hsub2.eq_of_length hperm.length_eq.symm).symm
  · have hac :
        area_counts
            [mk_row "Hip Flexion" "t" none none none none,
             mk_row "Lat Flexibility" "t" none none none none,
             mk_row "Hip Flexion" "u" none none none none] [0, 1, 2] =
          [("Hip Flexion", 2), ("Lat Flexibility", 1)] := by decide
    unfold sorted_areas
    rw [hac]
    exact List.mergeSort_of_sorted (by decide)

/-- Witness for C3: Hip Flexion is among the counted areas of the example. -/
theorem C3_sorted_areas_stable_witness :
    "Hip Flexion" ∈
      (area_counts
          [mk_row "Hip Flexion" "t" none none none none,
           mk_row "Lat Flexibility" "t" none none none none,
           mk_row "Hip Flexion" "u" none none none none]
          [0, 1, 2]).map Prod.fst :=
  ((C3_sorted_areas_stable
      [mk_row "Hip Flexion" "t" none none none none,
       mk_row "Lat Flexibility" "t" none none none none,
       mk_row "Hip Flexion" "u" none none none none]
      [0, 1, 2]).2.2.1 "Hip Flexion").mpr (by decide)
